import Mathlib

/-!
# NetworkManager (src/NetworkManager.cpp)

A shallow embedding of the peer connection manager: the connection table
`openConnections`, the listener `CheckForNewConnections`, the broadcaster
`SendMessageToPeers`, the poller `PostMessagesFromPeers` and the outbound
connector `AttemptToConnect`.

The socket layer (`TCPSocket`, `SocketUtil`, `SocketAddress`) and the message
log are external to the file.  Their answers are inputs of the embedding: an
accept or a connect attempt is described by the values the socket calls return,
and send / receive go through an arbitrary state-passing `Transport`.
-/

namespace NetworkManager

/-- The error code `WSAEWOULDBLOCK`, a constant of the platform's socket headers
(10035 in winsock). -/
def WSAEWOULDBLOCK : Int := 10035

/-- The receive buffer capacity `BUFLEN` of `PostMessagesFromPeers`. -/
def BUFLEN : Nat := 4096

/-- A socket handle (`TCPSocketPtr`), identified by a number. -/
abbrev Handle := Nat

/-- The type of `openConnections`: a map with unique keys from remote address
to socket handle.  Its iteration order is the order of `entries`. -/
abbrev ConnectionTable (Addr : Type) := AList (fun _ : Addr => Handle)

/-- The manager's members `openConnections` and `messageLog`, together with the
two pieces of the environment the code acts on: the lines passed to
`SocketUtil::ReportError` and the blocking mode of every socket. -/
structure State (Addr : Type) where
  openConnections : ConnectionTable Addr
  messageLog : List String
  errorReports : List String
  nonBlocking : Handle → Bool

/-- The state of a manager that has no connection yet. -/
def State.initial (Addr : Type) : State Addr :=
  { openConnections := ∅, messageLog := [], errorReports := [], nonBlocking := fun _ => false }

/-- Modelled from the spec: `TCPSocket::SetNonBlockingMode` (the socket
abstraction's mode toggle) is not part of the file.  A call that returns `0`
puts the socket in the requested mode, a call that returns an error code leaves
the mode as it was. -/
def SetNonBlockingMode (modes : Handle → Bool) (sock : Handle) (inShouldBeNonBlocking : Bool)
    (result : Int) : Handle → Bool :=
  if result = 0 then Function.update modes sock inShouldBeNonBlocking else modes

/-- What the socket layer answers during one `CheckForNewConnections`:
the socket returned by `listenSocket->Accept` (`none` is `nullptr`), the
address it wrote to `clientAddress`, the value of `SocketUtil::GetLastError()`
read right after, and the result of `SetNonBlockingMode(true)` on the accepted
socket. -/
structure AcceptOutcome (Addr : Type) where
  connectionSocket : Option Handle
  clientAddress : Addr
  error : Int
  result : Int

/-- `NetworkManager::CheckForNewConnections`.  `none` is a failed `assert`
(the process stops). `render` is `SocketAddress::ToString`. -/
def CheckForNewConnections {Addr : Type} [DecidableEq Addr] (render : Addr → String)
    (s : State Addr) (o : AcceptOutcome Addr) : Option (State Addr) :=
  match o.connectionSocket with
  | none =>
    if o.error ≠ WSAEWOULDBLOCK then
      none
    else
      some s
  | some connectionSocket =>
    if o.result = 0 then
      some { s with
        openConnections := s.openConnections.insert o.clientAddress connectionSocket
        messageLog := s.messageLog ++ ["New connection from " ++ render o.clientAddress ++ "\n"]
        nonBlocking := SetNonBlockingMode s.nonBlocking connectionSocket true o.result }
    else
      none

/-- What the socket layer answers during one `AttemptToConnect`: the socket
from `CreateTCPSocket` (`none` is `nullptr`), and the results of `Bind`, of
`SetNonBlockingMode(false)`, of `Connect` and of `SetNonBlockingMode(true)`. -/
structure ConnectOutcome where
  clientSocket : Option Handle
  bindResult : Int
  blockingResult : Int
  connectResult : Int
  nonBlockingResult : Int

/-- `NetworkManager::AttemptToConnect`.  `none` is a failed `assert`.  The
results of the two mode toggles are not examined by the code. -/
def AttemptToConnect {Addr : Type} [DecidableEq Addr]
    (s : State Addr) (targetAddress : Addr) (o : ConnectOutcome) : Option (State Addr) :=
  match o.clientSocket with
  | none => none
  | some clientSocket =>
    if o.bindResult = 0 then
      let modes := SetNonBlockingMode s.nonBlocking clientSocket false o.blockingResult
      if o.connectResult = 0 then
        some { s with
          openConnections := s.openConnections.insert targetAddress clientSocket
          nonBlocking := SetNonBlockingMode modes clientSocket true o.nonBlockingResult }
      else
        none
    else
      none

/-- The send and receive primitives of the socket layer over an arbitrary
world `σ`: `send w sock message` is `sock->Send(message.c_str(),
message.length())`, `receive w sock cap` is `sock->Receive(buffer, cap)` and
returns the `int32_t` result with the contents of `buffer` after the call. -/
structure Transport (σ : Type) where
  send : σ → Handle → String → Int × σ
  receive : σ → Handle → Nat → (Int × List Char) × σ

/-- One call of `Send` made by the broadcaster, with the result it got. -/
structure SendCall where
  handle : Handle
  message : String
  result : Int
  deriving DecidableEq

/-- What one run of the broadcast loop produces: the world afterwards, the
lines given to `ReportError`, and the `Send` calls in the order made. -/
structure SendRun (σ : Type) where
  world : σ
  reports : List String
  calls : List SendCall

/-- The `for (auto connection : openConnections)` loop of
`SendMessageToPeers`, over the entries still to visit. -/
def sendLoop {Addr σ : Type} (T : Transport σ) (message : String) :
    List (Sigma (fun _ : Addr => Handle)) → σ → SendRun σ
  | [], w => { world := w, reports := [], calls := [] }
  | connection :: rest, w =>
    let r := T.send w connection.2 message
    let len := r.1
    if len < 0 then
      if len = -WSAEWOULDBLOCK then
        let r2 := T.send r.2 connection.2 message
        let out := sendLoop T message rest r2.2
        { out with calls := ⟨connection.2, message, len⟩ ::
                            ⟨connection.2, message, r2.1⟩ :: out.calls }
      else
        let out := sendLoop T message rest r.2
        { out with reports := "Send" :: out.reports
                   calls := ⟨connection.2, message, len⟩ :: out.calls }
    else
      let out := sendLoop T message rest r.2
      { out with calls := ⟨connection.2, message, len⟩ :: out.calls }

/-- `NetworkManager::SendMessageToPeers`: the state and the world afterwards,
and the `Send` calls made. -/
def SendMessageToPeers {Addr σ : Type} (T : Transport σ) (s : State Addr) (w : σ)
    (message : String) : State Addr × σ × List SendCall :=
  let out := sendLoop T message s.openConnections.entries w
  ({ s with errorReports := s.errorReports ++ out.reports }, out.world, out.calls)

/-- One call of `Receive` made by the poller: the connection it was made for,
the capacity passed, the result and the buffer contents. -/
structure RecvCall (Addr : Type) where
  address : Addr
  handle : Handle
  capacity : Nat
  len : Int
  buffer : List Char
  deriving DecidableEq

/-- What one run of the polling loop produces: the world afterwards, the lines
given to `ReportError`, the lines given to `messageLog.AddMessage`, and the
`Receive` calls in the order made. -/
structure PollRun (σ Addr : Type) where
  world : σ
  reports : List String
  posted : List String
  calls : List (RecvCall Addr)

/-- The `for (auto connection : openConnections)` loop of
`PostMessagesFromPeers`, over the entries still to visit. -/
def pollLoop {Addr σ : Type} (render : Addr → String) (T : Transport σ) :
    List (Sigma (fun _ : Addr => Handle)) → σ → PollRun σ Addr
  | [], w => { world := w, reports := [], posted := [], calls := [] }
  | connection :: rest, w =>
    let r := T.receive w connection.2 BUFLEN
    let len := r.1.1
    let buffer := r.1.2
    let out := pollLoop render T rest r.2
    let call : RecvCall Addr := ⟨connection.1, connection.2, BUFLEN, len, buffer⟩
    if len < 0 then
      if len = -WSAEWOULDBLOCK then
        { out with calls := call :: out.calls }
      else
        { out with reports := "Receive" :: out.reports, calls := call :: out.calls }
    else if len > 0 then
      let message := String.mk (buffer.take len.toNat)
      { out with posted := (render connection.1 ++ ": " ++ message) :: out.posted
                 calls := call :: out.calls }
    else
      { out with calls := call :: out.calls }

/-- `NetworkManager::PostMessagesFromPeers`: the state and the world
afterwards, and the `Receive` calls made. -/
def PostMessagesFromPeers {Addr σ : Type} (render : Addr → String) (T : Transport σ)
    (s : State Addr) (w : σ) : State Addr × σ × List (RecvCall Addr) :=
  let out := pollLoop render T s.openConnections.entries w
  ({ s with messageLog := s.messageLog ++ out.posted
            errorReports := s.errorReports ++ out.reports }, out.world, out.calls)

/-- The outcome of a successful accept event: `Accept` returned the socket
`ev.1.2` for the remote address `ev.1.1`, the last error read afterwards was
`ev.2`, and the switch to non-blocking mode returned `0`. -/
def acceptedOutcome {Addr : Type} (ev : (Addr × Handle) × Int) : AcceptOutcome Addr :=
  { connectionSocket := some ev.1.2, clientAddress := ev.1.1, error := ev.2, result := 0 }

/-- One `CheckForNewConnections` per accept outcome, in order; `none` as soon
as one call fails an `assert`. -/
def runAccepts {Addr : Type} [DecidableEq Addr] (render : Addr → String) :
    State Addr → List (AcceptOutcome Addr) → Option (State Addr)
  | s, [] => some s
  | s, o :: rest =>
    match CheckForNewConnections render s o with
    | none => none
    | some s' => runAccepts render s' rest

/-- A concrete address identity: four octets and a port. -/
structure SocketAddress where
  a : Nat
  b : Nat
  c : Nat
  d : Nat
  port : Nat
  deriving DecidableEq

/-- The textual rendering `a.b.c.d:port` of a concrete address. -/
def SocketAddress.ToString (x : SocketAddress) : String :=
  toString x.a ++ "." ++ toString x.b ++ "." ++ toString x.c ++ "." ++ toString x.d ++ ":" ++
    toString x.port

/-- The log line the poller posts for one receive call, if any: the rendering
of the connection's address, `": "`, and the first `len` bytes of the buffer
when `len` is positive. -/
def postedLine {Addr : Type} (render : Addr → String) (c : RecvCall Addr) : Option String :=
  if 0 < c.len then some (render c.address ++ ": " ++ String.mk (c.buffer.take c.len.toNat))
  else none

/-- The error line the poller reports for one receive call, if any. -/
def reportedLine {Addr : Type} (c : RecvCall Addr) : Option String :=
  if c.len < 0 ∧ c.len ≠ -WSAEWOULDBLOCK then some "Receive" else none

/-- The `Send` calls one visit of a connection consists of: a single call with
the full message whose result is not would-block, or a call that returned
would-block followed by one more call with the full message. -/
def sendsOnceOrTwice {Addr : Type} (message : String)
    (connection : Sigma (fun _ : Addr => Handle)) (chunk : List SendCall) : Prop :=
  (∃ r, r ≠ -WSAEWOULDBLOCK ∧ chunk = [⟨connection.2, message, r⟩]) ∨
  (∃ r2, chunk = [⟨connection.2, message, -WSAEWOULDBLOCK⟩, ⟨connection.2, message, r2⟩])

/-- Whether the first `Send` of a visit returned a negative result other than
would-block. -/
def firstFailed (chunk : List SendCall) : Bool :=
  match chunk with
  | [] => false
  | c :: _ => decide (c.result < 0) && !decide (c.result = -WSAEWOULDBLOCK)

/-- A transport that plays back fixed results: each `Send` returns the next
entry of `sends` (`0` when exhausted), each `Receive` the next entry of
`receives` (would-block when exhausted). -/
structure Script where
  sends : List Int
  receives : List (Int × List Char)
  deriving DecidableEq

/-- The transport over `Script`. -/
def scripted : Transport Script where
  send w _ _ := (w.sends.headD 0, { w with sends := w.sends.tail })
  receive w _ _ :=
    (w.receives.headD (-WSAEWOULDBLOCK, []), { w with receives := w.receives.tail })

/-- The world of the mock transport: per socket, whether one would-block is
still to be injected, and the messages delivered so far. -/
structure MockWorld where
  pendingWouldBlock : Handle → Bool
  delivered : Handle → List String

/-- The mock transport: a `Send` on a socket with a pending would-block
delivers nothing, returns `-WSAEWOULDBLOCK` and clears the flag; any other
`Send` delivers the whole message and returns its length.  Nothing is ever
ready to receive. -/
def mockTransport : Transport MockWorld where
  send w sock message :=
    if w.pendingWouldBlock sock then
      (-WSAEWOULDBLOCK,
        { w with pendingWouldBlock := Function.update w.pendingWouldBlock sock false })
    else
      ((message.length : Int),
        { w with delivered := Function.update w.delivered sock (w.delivered sock ++ [message]) })
  receive w _ _ := ((-WSAEWOULDBLOCK, []), w)

/-- The number of bytes the mock transport of a socket has received. -/
def bytesReceived (w : MockWorld) (sock : Handle) : Nat :=
  ((w.delivered sock).map String.length).sum

/-- The peer `10.0.0.5:5555`. -/
def peerA : SocketAddress := ⟨10, 0, 0, 5, 5555⟩

/-- The peer `10.0.0.6:6666`. -/
def peerB : SocketAddress := ⟨10, 0, 0, 6, 6666⟩

/-- A manager with the two connections `peerA` (socket 3) and `peerB`
(socket 4) and nothing logged. -/
def twoPeers : State SocketAddress :=
  { State.initial SocketAddress with
    openConnections := AList.insert peerA 3 (AList.insert peerB 4 ∅) }

/-- A manager with the single connection `peerA` (socket 3). -/
def onePeer : State SocketAddress :=
  { State.initial SocketAddress with openConnections := AList.insert peerA 3 ∅ }

/-- A mock world with nothing delivered yet in which socket 3 blocks once. -/
def blockOnceOn3 : MockWorld :=
  { pendingWouldBlock := fun sock => decide (sock = 3), delivered := fun _ => [] }

/-- The two-peer manager after a completed reconnect to `peerA` through the
new socket 9 with both mode toggles successful. -/
def twoPeersReconnected : State SocketAddress :=
  { twoPeers with
    openConnections := twoPeers.openConnections.insert peerA 9
    nonBlocking :=
      SetNonBlockingMode (SetNonBlockingMode twoPeers.nonBlocking 9 false 0) 9 true 0 }

/-- The answers of a connect attempt that creates socket 9, binds and connects
it, and whose switch back to non-blocking mode fails with error 10050. -/
def toggleBackFails : ConnectOutcome :=
  { clientSocket := some 9, bindResult := 0, blockingResult := 0, connectResult := 0,
    nonBlockingResult := 10050 }

/-- The send calls `calls`, made one after the other on the transport starting
in world `w`, get the recorded results and leave the world `w'`: the first
call is answered by `T.send` in `w`, the next in the world that call left, and
so on. -/
def sendTrace {σ : Type} (T : Transport σ) : σ → List SendCall → σ → Prop
  | w, [], w' => w' = w
  | w, c :: rest, w' =>
    (T.send w c.handle c.message).1 = c.result ∧
      sendTrace T (T.send w c.handle c.message).2 rest w'

/-- The receive calls `calls`, made one after the other on the transport
starting in world `w`, get the recorded results and buffers and leave the world
`w'`. -/
def recvTrace {Addr σ : Type} (T : Transport σ) : σ → List (RecvCall Addr) → σ → Prop
  | w, [], w' => w' = w
  | w, c :: rest, w' =>
    (T.receive w c.handle c.capacity).1 = (c.len, c.buffer) ∧
      recvTrace T (T.receive w c.handle c.capacity).2 rest w'

/-- Every handle stored in the table is in non-blocking mode. -/
def allNonBlocking {Addr : Type} [DecidableEq Addr] (s : State Addr) : Prop :=
  ∀ a sock, s.openConnections.lookup a = some sock → s.nonBlocking sock = true

/-! ## Accepting connections -/

section Accept

variable {Addr : Type} [DecidableEq Addr]

/-- A call of `CheckForNewConnections` on a successful accept outcome completes
with the socket inserted, one line logged and the socket non-blocking. -/
theorem check_accepted (render : Addr → String) (s : State Addr) (ev : (Addr × Handle) × Int) :
    CheckForNewConnections render s (acceptedOutcome ev) =
      some { s with
        openConnections := s.openConnections.insert ev.1.1 ev.1.2
        messageLog := s.messageLog ++ ["New connection from " ++ render ev.1.1 ++ "\n"]
        nonBlocking := Function.update s.nonBlocking ev.1.2 true } := by
  simp [CheckForNewConnections, acceptedOutcome, SetNonBlockingMode]

/-- Feeding successful accept events never fails, and the table afterwards is
the table before with the events inserted in order. -/
theorem runAccepts_accepted (render : Addr → String) (evs : List ((Addr × Handle) × Int)) :
    ∀ s : State Addr, ∃ s', runAccepts render s (evs.map acceptedOutcome) = some s' ∧
      s'.openConnections =
        evs.foldl (fun t ev => t.insert ev.1.1 ev.1.2) s.openConnections := by
  induction evs with
  | nil => intro s; exact ⟨s, rfl, rfl⟩
  | cons ev rest ih =>
    intro s
    obtain ⟨s', h1, h2⟩ := ih { s with
        openConnections := s.openConnections.insert ev.1.1 ev.1.2
        messageLog := s.messageLog ++ ["New connection from " ++ render ev.1.1 ++ "\n"]
        nonBlocking := Function.update s.nonBlocking ev.1.2 true }
    refine ⟨s', ?_, ?_⟩
    · simp only [List.map_cons, runAccepts, check_accepted]
      exact h1
    · simpa using h2

/-- The keys after a run of inserts are the keys before and the keys inserted. -/
theorem mem_foldl_insert (evs : List ((Addr × Handle) × Int)) :
    ∀ (t : ConnectionTable Addr) (a : Addr),
      a ∈ evs.foldl (fun t ev => t.insert ev.1.1 ev.1.2) t ↔
        a ∈ t ∨ a ∈ evs.map (fun ev => ev.1.1) := by
  induction evs with
  | nil => intro t a; simp
  | cons ev rest ih =>
    intro t a
    simp only [List.foldl_cons, ih, AList.mem_insert, List.map_cons, List.mem_cons]
    tauto

/-- Inserts under other keys do not change what a key maps to. -/
theorem lookup_foldl_insert_of_ne (evs : List ((Addr × Handle) × Int)) (a : Addr) :
    ∀ (t : ConnectionTable Addr), (∀ x ∈ evs, x.1.1 ≠ a) →
      (evs.foldl (fun t ev => t.insert ev.1.1 ev.1.2) t).lookup a = t.lookup a := by
  induction evs with
  | nil => intro t _; rfl
  | cons ev rest ih =>
    intro t h
    simp only [List.foldl_cons]
    rw [ih _ (fun x hx => h x (List.mem_cons_of_mem _ hx))]
    exact AList.lookup_insert_ne (fun e => h ev (List.mem_cons_self _ _) e.symm)

/-- C1: feeding any finite sequence of successful accept events, one per call
of `CheckForNewConnections`, to a manager whose table is empty succeeds, and
afterwards the keys of the table are exactly the addresses accepted and every
key maps to the handle of the last event that carried it. -/
theorem C1_table_after_accepts (render : Addr → String) (s : State Addr)
    (hs : s.openConnections = ∅) (evs : List ((Addr × Handle) × Int)) :
    ∃ s', runAccepts render s (evs.map acceptedOutcome) = some s' ∧
      (∀ a, a ∈ s'.openConnections ↔ a ∈ evs.map (fun ev => ev.1.1)) ∧
      (∀ pre post a h e, evs = pre ++ ((a, h), e) :: post → (∀ x ∈ post, x.1.1 ≠ a) →
        s'.openConnections.lookup a = some h) := by
  obtain ⟨s', h1, h2⟩ := runAccepts_accepted render evs s
  refine ⟨s', h1, ?_, ?_⟩
  · intro a
    rw [h2, mem_foldl_insert, hs]
    simp
  · intro pre post a h e hev hpost
    rw [h2, hev, List.foldl_append, List.foldl_cons, lookup_foldl_insert_of_ne post a _ hpost]
    exact AList.lookup_insert _

/-- C1 at three accepts, the third repeating the address of the first with a
new handle: `peerA` ends on the later socket 5, `peerB` on socket 4, and no
other address is a key. -/
theorem C1_table_after_accepts_witness :
    (State.initial SocketAddress).openConnections = ∅ ∧
    ∃ s', runAccepts SocketAddress.ToString (State.initial SocketAddress)
        ([((peerA, 3), 0), ((peerB, 4), 0), ((peerA, 5), 0)].map acceptedOutcome) = some s' ∧
      (∀ a, a ∈ s'.openConnections ↔ a ∈ [peerA, peerB, peerA]) ∧
      s'.openConnections.lookup peerA = some 5 ∧
      s'.openConnections.lookup peerB = some 4 := by
  obtain ⟨s', h1, h2, h3⟩ := C1_table_after_accepts SocketAddress.ToString
    (State.initial SocketAddress) rfl [((peerA, 3), 0), ((peerB, 4), 0), ((peerA, 5), 0)]
  exact ⟨rfl, s', h1, h2,
    h3 [((peerA, 3), 0), ((peerB, 4), 0)] [] peerA 5 0 rfl (by simp),
    h3 [((peerA, 3), 0)] [((peerA, 5), 0)] peerB 4 0 rfl (by decide)⟩

/-- C2: whatever the state before, a call of `CheckForNewConnections` whose
accept succeeds with remote address `A` returns, appends the single line
`"New connection from " ++ render A ++ "\n"` after the unchanged earlier log
entries, that line contains the rendering of `A`, the table maps `A` to the
accepted socket, and when the table was empty before it has exactly this one
entry afterwards. -/
theorem C2_accept_logs_and_admits (render : Addr → String) (s : State Addr) (A : Addr)
    (sock : Handle) (err : Int) :
    ∃ s', CheckForNewConnections render s (acceptedOutcome ((A, sock), err)) = some s' ∧
      s'.messageLog = s.messageLog ++ ["New connection from " ++ render A ++ "\n"] ∧
      (render A).data <:+: ("New connection from " ++ render A ++ "\n").data ∧
      s'.openConnections.lookup A = some sock ∧
      (s.openConnections = ∅ → s'.openConnections.entries = [⟨A, sock⟩]) := by
  refine ⟨_, check_accepted render s ((A, sock), err), rfl, ?_, AList.lookup_insert _, ?_⟩
  · exact ⟨"New connection from ".data, "\n".data, by simp [String.data_append]⟩
  · intro hs
    simp [hs]

/-- C2 at the address `10.0.0.5:5555`, from the initial state: one table
entry, keyed by that address, and one log line that contains its rendering. -/
theorem C2_accept_logs_and_admits_witness :
    ∃ s', CheckForNewConnections SocketAddress.ToString (State.initial SocketAddress)
        (acceptedOutcome ((⟨10, 0, 0, 5, 5555⟩, 3), 0)) = some s' ∧
      s'.messageLog = ["New connection from 10.0.0.5:5555\n"] ∧
      "10.0.0.5:5555".data <:+: "New connection from 10.0.0.5:5555\n".data ∧
      s'.openConnections.lookup ⟨10, 0, 0, 5, 5555⟩ = some 3 ∧
      s'.openConnections.entries = [⟨⟨10, 0, 0, 5, 5555⟩, 3⟩] := by
  obtain ⟨s', h1, h2, h3, h4, h5⟩ := C2_accept_logs_and_admits SocketAddress.ToString
    (State.initial SocketAddress) ⟨10, 0, 0, 5, 5555⟩ 3 0
  exact ⟨s', h1, h2, h3, h4, h5 rfl⟩

end Accept

/-! ## Polling -/

section Poll

variable {Addr σ : Type}

/-- The polling loop makes one `Receive` with capacity `BUFLEN` per entry, in
order, and what it posts and reports is read off the calls one by one. -/
theorem pollLoop_calls (render : Addr → String) (T : Transport σ)
    (l : List (Sigma (fun _ : Addr => Handle))) :
    ∀ w, (pollLoop render T l w).calls.map (fun c => (⟨c.address, c.handle⟩ : Sigma _)) = l ∧
      (∀ c ∈ (pollLoop render T l w).calls, c.capacity = BUFLEN) ∧
      (pollLoop render T l w).posted =
        (pollLoop render T l w).calls.filterMap (postedLine render) ∧
      (pollLoop render T l w).reports = (pollLoop render T l w).calls.filterMap reportedLine := by
  induction l with
  | nil => intro w; simp [pollLoop]
  | cons c rest ih =>
    intro w
    obtain ⟨h1, h2, h3, h4⟩ := ih (T.receive w c.2 BUFLEN).2
    have hlt : (T.receive w c.2 BUFLEN).1.1 < 0 → ¬ 0 < (T.receive w c.2 BUFLEN).1.1 :=
      fun h => not_lt.mpr h.le
    simp only [pollLoop]
    split_ifs with ha hb hc
    · refine ⟨by simp [h1], by simpa using h2, ?_, ?_⟩
      · simp [postedLine, hlt ha, h3]
      · simp [reportedLine, hb, h4]
    · refine ⟨by simp [h1], by simpa using h2, ?_, ?_⟩
      · simp [postedLine, hlt ha, h3]
      · simp [reportedLine, ha, hb, h4]
    · refine ⟨by simp [h1], by simpa using h2, ?_, ?_⟩
      · simp [postedLine, gt_iff_lt.mp hc, h3]
      · simp [reportedLine, ha, h4]
    · refine ⟨by simp [h1], by simpa using h2, ?_, ?_⟩
      · simp [postedLine, (show ¬ 0 < (T.receive w c.2 BUFLEN).1.1 from hc), h3]
      · simp [reportedLine, ha, h4]

/-- The receive calls recorded by the polling loop are the calls made on the
transport: each is answered by `T.receive` in the world the previous one left,
and the world returned is the one the last call left. -/
theorem pollLoop_trace (render : Addr → String) (T : Transport σ)
    (l : List (Sigma (fun _ : Addr => Handle))) :
    ∀ w, recvTrace T w (pollLoop render T l w).calls (pollLoop render T l w).world := by
  induction l with
  | nil => intro w; rfl
  | cons c rest ih =>
    intro w
    simp only [pollLoop]
    split_ifs <;> exact ⟨rfl, ih _⟩

/-- A `filterMap` that maps every element to `none` is empty. -/
theorem filterMap_eq_nil_of_forall {α β : Type} (f : α → Option β) (l : List α)
    (h : ∀ x ∈ l, f x = none) : l.filterMap f = [] := by
  induction l with
  | nil => rfl
  | cons x rest ih =>
    rw [List.filterMap_cons, h x (List.mem_cons_self _ _)]
    exact ih (fun y hy => h y (List.mem_cons_of_mem _ hy))

/-- C3: when no I/O is ready the polling operations change nothing.  A
`CheckForNewConnections` whose accept returns no socket with last error
would-block returns the state it was given, and a `PostMessagesFromPeers` in
which every receive made returns would-block returns the state it was given:
same table, same message log, no error reported. -/
theorem C3_idle_poll_no_effect [DecidableEq Addr] (render : Addr → String) (T : Transport σ)
    (s : State Addr) (w : σ) (clientAddress : Addr) (result : Int)
    (hidle : ∀ c ∈ (PostMessagesFromPeers render T s w).2.2, c.len = -WSAEWOULDBLOCK) :
    CheckForNewConnections render s
        { connectionSocket := none, clientAddress := clientAddress,
          error := WSAEWOULDBLOCK, result := result } = some s ∧
      (PostMessagesFromPeers render T s w).1 = s := by
  refine ⟨by simp [CheckForNewConnections], ?_⟩
  obtain ⟨-, -, h3, h4⟩ := pollLoop_calls render T s.openConnections.entries w
  have hidle' : ∀ c ∈ (pollLoop render T s.openConnections.entries w).calls,
      c.len = -WSAEWOULDBLOCK := hidle
  have hp : (pollLoop render T s.openConnections.entries w).posted = [] := by
    rw [h3]
    apply filterMap_eq_nil_of_forall
    intro c hc
    simp [postedLine, hidle' c hc, WSAEWOULDBLOCK]
  have hr : (pollLoop render T s.openConnections.entries w).reports = [] := by
    rw [h4]
    apply filterMap_eq_nil_of_forall
    intro c hc
    simp [reportedLine, hidle' c hc]
  simp [PostMessagesFromPeers, hp, hr]

/-- C3 on the two-peer manager over the mock transport, on which nothing is
ever ready to receive. -/
theorem C3_idle_poll_no_effect_witness :
    (∀ c ∈ (PostMessagesFromPeers SocketAddress.ToString mockTransport twoPeers
        blockOnceOn3).2.2, c.len = -WSAEWOULDBLOCK) ∧
    CheckForNewConnections SocketAddress.ToString twoPeers
        { connectionSocket := none, clientAddress := ⟨0, 0, 0, 0, 0⟩,
          error := WSAEWOULDBLOCK, result := 0 } = some twoPeers ∧
      (PostMessagesFromPeers SocketAddress.ToString mockTransport twoPeers blockOnceOn3).1 =
        twoPeers :=
  ⟨by decide, C3_idle_poll_no_effect SocketAddress.ToString mockTransport twoPeers
    blockOnceOn3 ⟨0, 0, 0, 0, 0⟩ 0 (by decide)⟩

/-- C4: whatever the table and the transport, `PostMessagesFromPeers` makes
exactly one `Receive` per connection, in table order and with capacity
`BUFLEN`: the calls it records are one per table entry, each answered by
`T.receive` in the world the previous call left, and the world it returns is
the one the last call left.  The message log afterwards is the log before
followed by one line `render A ++ ": " ++ payload` for each connection `A`
whose receive returned a positive count and nothing for the others; and when
the buffer holds at least the bytes the transport says it received, the
payload of such a line is exactly that many bytes. -/
theorem C4_poll_posts_received (render : Addr → String) (T : Transport σ)
    (s : State Addr) (w : σ) :
    (PostMessagesFromPeers render T s w).2.2.map
        (fun c => (⟨c.address, c.handle⟩ : Sigma (fun _ : Addr => Handle))) =
      s.openConnections.entries ∧
    (∀ c ∈ (PostMessagesFromPeers render T s w).2.2, c.capacity = BUFLEN) ∧
    recvTrace T w (PostMessagesFromPeers render T s w).2.2
      (PostMessagesFromPeers render T s w).2.1 ∧
    (PostMessagesFromPeers render T s w).1.messageLog =
      s.messageLog ++ (PostMessagesFromPeers render T s w).2.2.filterMap
        (fun c => if 0 < c.len then
            some (render c.address ++ ": " ++ String.mk (c.buffer.take c.len.toNat))
          else none) ∧
    (∀ c ∈ (PostMessagesFromPeers render T s w).2.2, 0 < c.len →
      c.len ≤ c.buffer.length →
      (((String.mk (c.buffer.take c.len.toNat)).length : Nat) : Int) = c.len) := by
  obtain ⟨h1, h2, h3, -⟩ := pollLoop_calls render T s.openConnections.entries w
  refine ⟨h1, h2, pollLoop_trace render T s.openConnections.entries w, ?_, ?_⟩
  · show s.messageLog ++ (pollLoop render T s.openConnections.entries w).posted = _
    rw [h3]
    rfl
  · intro c _ hpos hle
    have hn : c.len.toNat ≤ c.buffer.length := by omega
    simp only [String.length, List.length_take, min_eq_left hn]
    omega

/-- C4 on the two-peer manager: the receive on `peerA` returns zero bytes, the
receive on `peerB` returns the 2 bytes `ok`, one `Receive` is made on each
socket and the single line posted is that of `peerB`. -/
theorem C4_poll_posts_received_witness :
    (PostMessagesFromPeers SocketAddress.ToString scripted twoPeers
        ⟨[], [(0, []), (2, "ok!".data)]⟩).2.2 =
      [⟨peerA, 3, 4096, 0, []⟩, ⟨peerB, 4, 4096, 2, "ok!".data⟩] ∧
    recvTrace scripted ⟨[], [(0, []), (2, "ok!".data)]⟩
      [⟨peerA, 3, 4096, 0, []⟩, ⟨peerB, 4, 4096, 2, "ok!".data⟩] ⟨[], []⟩ ∧
    (PostMessagesFromPeers SocketAddress.ToString scripted twoPeers
        ⟨[], [(0, []), (2, "ok!".data)]⟩).1.messageLog = ["10.0.0.6:6666: ok"] ∧
    (((String.mk ("ok!".data.take (2 : Int).toNat)).length : Nat) : Int) = 2 := by
  have h := C4_poll_posts_received SocketAddress.ToString scripted twoPeers
    ⟨[], [(0, []), (2, "ok!".data)]⟩
  have hcalls : (PostMessagesFromPeers SocketAddress.ToString scripted twoPeers
        ⟨[], [(0, []), (2, "ok!".data)]⟩).2.2 =
      [⟨peerA, 3, 4096, 0, []⟩, ⟨peerB, 4, 4096, 2, "ok!".data⟩] := by decide
  have hworld : (PostMessagesFromPeers SocketAddress.ToString scripted twoPeers
        ⟨[], [(0, []), (2, "ok!".data)]⟩).2.1 = ⟨[], []⟩ := by decide
  refine ⟨hcalls, ?_, ?_, ?_⟩
  · have ht := h.2.2.1
    rw [hcalls, hworld] at ht
    exact ht
  · exact h.2.2.2.1.trans (by decide)
  · exact h.2.2.2.2 ⟨peerB, 4, 4096, 2, "ok!".data⟩ (by rw [hcalls]; decide) (by decide)
      (by decide)

end Poll

/-! ## Broadcasting -/

section Send

variable {Addr σ : Type}

/-- The calls of the broadcast loop split into one visit per entry, in order,
each of one or two sends of the full message, and one `"Send"` line is
reported for each visit whose first send failed other than by would-block. -/
theorem sendLoop_chunks (T : Transport σ) (message : String)
    (l : List (Sigma (fun _ : Addr => Handle))) :
    ∀ w, ∃ chunks : List (List SendCall),
      (sendLoop T message l w).calls = chunks.flatten ∧
      List.Forall₂ (sendsOnceOrTwice message) l chunks ∧
      (sendLoop T message l w).reports = (chunks.filter firstFailed).map (fun _ => "Send") := by
  induction l with
  | nil => intro w; exact ⟨[], by simp [sendLoop]⟩
  | cons c rest ih =>
    intro w
    simp only [sendLoop]
    split_ifs with ha hb
    · obtain ⟨chunks, h1, h2, h3⟩ := ih (T.send (T.send w c.2 message).2 c.2 message).2
      refine ⟨[⟨c.2, message, (T.send w c.2 message).1⟩,
        ⟨c.2, message, (T.send (T.send w c.2 message).2 c.2 message).1⟩] :: chunks, ?_, ?_, ?_⟩
      · simp [h1]
      · exact List.Forall₂.cons (Or.inr ⟨_, by rw [hb]⟩) h2
      · simp [h3, firstFailed, hb]
    · obtain ⟨chunks, h1, h2, h3⟩ := ih (T.send w c.2 message).2
      refine ⟨[⟨c.2, message, (T.send w c.2 message).1⟩] :: chunks, ?_, ?_, ?_⟩
      · simp [h1]
      · exact List.Forall₂.cons (Or.inl ⟨_, hb, rfl⟩) h2
      · simp [h3, firstFailed, ha, hb]
    · obtain ⟨chunks, h1, h2, h3⟩ := ih (T.send w c.2 message).2
      refine ⟨[⟨c.2, message, (T.send w c.2 message).1⟩] :: chunks, ?_, ?_, ?_⟩
      · simp [h1]
      · refine List.Forall₂.cons (Or.inl ⟨_, ?_, rfl⟩) h2
        intro h
        rw [h] at ha
        exact ha (by decide)
      · simp [h3, firstFailed, ha]

/-- The send calls recorded by the broadcast loop are the calls made on the
transport: each is answered by `T.send` in the world the previous one left, and
the world returned is the one the last call left. -/
theorem sendLoop_trace (T : Transport σ) (message : String)
    (l : List (Sigma (fun _ : Addr => Handle))) :
    ∀ w, sendTrace T w (sendLoop T message l w).calls (sendLoop T message l w).world := by
  induction l with
  | nil => intro w; rfl
  | cons c rest ih =>
    intro w
    simp only [sendLoop]
    split_ifs
    · exact ⟨rfl, rfl, ih _⟩
    · exact ⟨rfl, ih _⟩
    · exact ⟨rfl, ih _⟩

/-- Every element on the right of a `Forall₂` has a partner on the left. -/
theorem forall₂_exists_left {α β : Type} {R : α → β → Prop} {l : List α} {m : List β}
    (h : List.Forall₂ R l m) : ∀ y ∈ m, ∃ x ∈ l, R x y := by
  induction h with
  | nil => intro y hy; cases hy
  | cons hxy _ ih =>
    intro y hy
    rcases List.mem_cons.mp hy with rfl | hy
    · exact ⟨_, List.mem_cons_self _ _, hxy⟩
    · obtain ⟨x, hx, hr⟩ := ih y hy
      exact ⟨x, List.mem_cons_of_mem _ hx, hr⟩

/-- C5: whatever the table, the message and the transport, the `Send` calls of
`SendMessageToPeers` are one visit per connection of the table, in table
order; a visit is one call with the full message when its result is not
would-block, and two calls with the full message when the first result is
would-block, never more.  The calls are exactly those made on the transport:
each is answered by `T.send` in the world the previous call left, and the world
returned is the one the last call left, whatever the results are. -/
theorem C5_send_once_or_twice (T : Transport σ) (s : State Addr) (w : σ) (message : String) :
    ∃ chunks : List (List SendCall),
      (SendMessageToPeers T s w message).2.2 = chunks.flatten ∧
      List.Forall₂ (sendsOnceOrTwice message) s.openConnections.entries chunks ∧
      chunks.length = s.openConnections.entries.length ∧
      (∀ chunk ∈ chunks, chunk.length = 1 ∨ chunk.length = 2) ∧
      sendTrace T w (SendMessageToPeers T s w message).2.2
        (SendMessageToPeers T s w message).2.1 := by
  obtain ⟨chunks, h1, h2, -⟩ := sendLoop_chunks T message s.openConnections.entries w
  refine ⟨chunks, h1, h2, h2.length_eq.symm, ?_,
    sendLoop_trace T message s.openConnections.entries w⟩
  intro chunk hchunk
  obtain ⟨c, -, hc⟩ := forall₂_exists_left h2 chunk hchunk
  rcases hc with ⟨r, -, rfl⟩ | ⟨r2, rfl⟩
  · exact Or.inl rfl
  · exact Or.inr rfl

/-- C5 on the two-peer manager: the first send to `peerA` returns would-block
and is retried once, the send to `peerB` fails with `-10054` and is not
retried; three sends are made, all answers of the transport are consumed. -/
theorem C5_send_once_or_twice_witness :
    (SendMessageToPeers scripted twoPeers ⟨[-10035, 2, -10054], []⟩ "hi").2.2 =
      [⟨3, "hi", -10035⟩, ⟨3, "hi", 2⟩, ⟨4, "hi", -10054⟩] ∧
    (SendMessageToPeers scripted twoPeers ⟨[-10035, 2, -10054], []⟩ "hi").2.1 = ⟨[], []⟩ ∧
    ∃ chunks : List (List SendCall),
      [⟨3, "hi", -10035⟩, ⟨3, "hi", 2⟩, ⟨4, "hi", -10054⟩] = chunks.flatten ∧
      List.Forall₂ (sendsOnceOrTwice "hi") twoPeers.openConnections.entries chunks ∧
      chunks.length = 2 ∧
      sendTrace scripted ⟨[-10035, 2, -10054], []⟩
        [⟨3, "hi", -10035⟩, ⟨3, "hi", 2⟩, ⟨4, "hi", -10054⟩] ⟨[], []⟩ := by
  have hcalls : (SendMessageToPeers scripted twoPeers ⟨[-10035, 2, -10054], []⟩ "hi").2.2 =
      [⟨3, "hi", -10035⟩, ⟨3, "hi", 2⟩, ⟨4, "hi", -10054⟩] := by decide
  have hworld : (SendMessageToPeers scripted twoPeers ⟨[-10035, 2, -10054], []⟩ "hi").2.1 =
      ⟨[], []⟩ := by decide
  obtain ⟨chunks, h1, h2, h3, -, h5⟩ :=
    C5_send_once_or_twice scripted twoPeers ⟨[-10035, 2, -10054], []⟩ "hi"
  rw [hcalls] at h1
  rw [hcalls, hworld] at h5
  exact ⟨hcalls, hworld, chunks, h1, h2, h3.trans (by decide), h5⟩

/-- The reports of `SendMessageToPeers`, for every transport: one `"Send"` line
per connection whose first send returned a negative result other than
would-block, appended to the earlier reports; every connection of the table is
visited whatever the results on the others, and the calls are those made on the
transport. -/
theorem send_reports_first_failures (T : Transport σ) (s : State Addr) (w : σ)
    (message : String) :
    ∃ chunks : List (List SendCall),
      (SendMessageToPeers T s w message).2.2 = chunks.flatten ∧
      List.Forall₂ (sendsOnceOrTwice message) s.openConnections.entries chunks ∧
      sendTrace T w (SendMessageToPeers T s w message).2.2
        (SendMessageToPeers T s w message).2.1 ∧
      (SendMessageToPeers T s w message).1.errorReports =
        s.errorReports ++ (chunks.filter firstFailed).map (fun _ => "Send") := by
  obtain ⟨chunks, h1, h2, h3⟩ := sendLoop_chunks T message s.openConnections.entries w
  refine ⟨chunks, h1, h2, sendLoop_trace T message s.openConnections.entries w, ?_⟩
  show s.errorReports ++ (sendLoop T message s.openConnections.entries w).reports = _
  rw [h3]

/-- C6 on a failing retry: with one connection whose first send returns
would-block and whose retry returns the error `-10054`, a send has returned a
negative result other than would-block and `SendMessageToPeers` reports
nothing; the same error on a first send is reported. -/
theorem C6_retry_error_not_reported :
    (SendMessageToPeers scripted onePeer ⟨[-10035, -10054], []⟩ "hi").2.2 =
      [⟨3, "hi", -10035⟩, ⟨3, "hi", -10054⟩] ∧
    (∃ c ∈ (SendMessageToPeers scripted onePeer ⟨[-10035, -10054], []⟩ "hi").2.2,
      c.result < 0 ∧ c.result ≠ -WSAEWOULDBLOCK) ∧
    (SendMessageToPeers scripted onePeer ⟨[-10035, -10054], []⟩ "hi").1.errorReports =
      onePeer.errorReports ∧
    (SendMessageToPeers scripted onePeer ⟨[-10054], []⟩ "hi").1.errorReports =
      onePeer.errorReports ++ ["Send"] := by
  decide

/-- Over the mock transport and entries with distinct sockets, the broadcast
loop delivers the message exactly once more to every socket visited and
nothing to any other socket. -/
theorem sendLoop_mock_delivered (message : String) (l : List (Sigma (fun _ : Addr => Handle))) :
    ∀ w : MockWorld, (l.map (fun c => c.2)).Nodup → ∀ sock,
      (sendLoop mockTransport message l w).world.delivered sock =
        if sock ∈ l.map (fun c => c.2) then w.delivered sock ++ [message]
        else w.delivered sock := by
  induction l with
  | nil => intro w _ sock; simp [sendLoop]
  | cons c rest ih =>
    intro w hnd sock
    rw [List.map_cons, List.nodup_cons] at hnd
    have key : ∀ w' : MockWorld,
        w'.delivered = Function.update w.delivered c.2 (w.delivered c.2 ++ [message]) →
        (sendLoop mockTransport message rest w').world.delivered sock =
          if sock ∈ (c :: rest).map (fun c => c.2) then w.delivered sock ++ [message]
          else w.delivered sock := by
      intro w' hw'
      rw [ih w' hnd.2 sock, hw']
      by_cases hs : sock = c.2
      · subst hs
        simp [hnd.1]
      · rw [Function.update_noteq hs]
        by_cases hm : sock ∈ rest.map (fun c => c.2)
        · rw [if_pos hm, if_pos (by rw [List.map_cons]; exact List.mem_cons_of_mem _ hm)]
        · rw [if_neg hm, if_neg (by
            rw [List.map_cons]
            exact fun h => (List.mem_cons.mp h).elim hs hm)]
    by_cases hp : w.pendingWouldBlock c.2 = true
    · have h1 : mockTransport.send w c.2 message = (-WSAEWOULDBLOCK,
          { w with pendingWouldBlock := Function.update w.pendingWouldBlock c.2 false }) := by
        simp [mockTransport, hp]
      have h2 : mockTransport.send
          { w with pendingWouldBlock := Function.update w.pendingWouldBlock c.2 false }
          c.2 message = ((message.length : Int),
          { w with pendingWouldBlock := Function.update w.pendingWouldBlock c.2 false
                   delivered := Function.update w.delivered c.2 (w.delivered c.2 ++ [message]) }) := by
        simp [mockTransport]
      have hneg : -WSAEWOULDBLOCK < 0 := by decide
      simp only [sendLoop, h1, h2, hneg, if_true]
      exact key _ rfl
    · have h1 : mockTransport.send w c.2 message = ((message.length : Int),
          { w with delivered := Function.update w.delivered c.2 (w.delivered c.2 ++ [message]) }) := by
        simp [mockTransport, hp]
      have hnn : ¬ (message.length : Int) < 0 := not_lt.mpr (Int.ofNat_nonneg _)
      simp only [sendLoop, h1, hnn, if_false]
      exact key _ rfl

/-- C7: over the mock transport, for every message and every table whose
connections have distinct sockets, after `SendMessageToPeers` the transport of
each connection has had the full message delivered exactly once more than
before, that is exactly `message.length` more bytes; on fresh transports this
is the message once and `message.length` bytes. -/
theorem C7_mock_delivers_once (s : State Addr) (w : MockWorld) (message : String)
    (hdistinct : (s.openConnections.entries.map (fun c => c.2)).Nodup) :
    ∀ c ∈ s.openConnections.entries,
      (SendMessageToPeers mockTransport s w message).2.1.delivered c.2 =
        w.delivered c.2 ++ [message] ∧
      bytesReceived (SendMessageToPeers mockTransport s w message).2.1 c.2 =
        bytesReceived w c.2 + message.length ∧
      (w.delivered c.2 = [] →
        (SendMessageToPeers mockTransport s w message).2.1.delivered c.2 = [message] ∧
        bytesReceived (SendMessageToPeers mockTransport s w message).2.1 c.2 =
          message.length) := by
  intro c hc
  have hmem : c.2 ∈ s.openConnections.entries.map (fun c => c.2) := List.mem_map_of_mem _ hc
  have h : (SendMessageToPeers mockTransport s w message).2.1.delivered c.2 =
      w.delivered c.2 ++ [message] := by
    show (sendLoop mockTransport message s.openConnections.entries w).world.delivered c.2 = _
    rw [sendLoop_mock_delivered message _ w hdistinct c.2, if_pos hmem]
  refine ⟨h, ?_, ?_⟩
  · simp [bytesReceived, h]
  · intro hfresh
    simp [bytesReceived, h, hfresh]

/-- C7 on two connections: `peerA` (socket 3) returns would-block and then
succeeds on the retry, `peerB` (socket 4) succeeds at once, and both
transports have received the message exactly once. -/
theorem C7_mock_delivers_once_witness :
    (twoPeers.openConnections.entries.map (fun c => c.2)).Nodup ∧
    (SendMessageToPeers mockTransport twoPeers blockOnceOn3 "hello").2.2 =
      [⟨3, "hello", -10035⟩, ⟨3, "hello", 5⟩, ⟨4, "hello", 5⟩] ∧
    ((SendMessageToPeers mockTransport twoPeers blockOnceOn3 "hello").2.1.delivered 3 =
        ["hello"] ∧
      bytesReceived (SendMessageToPeers mockTransport twoPeers blockOnceOn3 "hello").2.1 3 = 5) ∧
    ((SendMessageToPeers mockTransport twoPeers blockOnceOn3 "hello").2.1.delivered 4 =
        ["hello"] ∧
      bytesReceived (SendMessageToPeers mockTransport twoPeers blockOnceOn3 "hello").2.1 4 = 5) :=
  ⟨by decide, by decide,
    (C7_mock_delivers_once twoPeers blockOnceOn3 "hello" (by decide) ⟨peerA, 3⟩
      (by decide)).2.2 rfl,
    (C7_mock_delivers_once twoPeers blockOnceOn3 "hello" (by decide) ⟨peerB, 4⟩
      (by decide)).2.2 rfl⟩

end Send

/-! ## Connecting, and the table across all operations -/

section Connect

variable {Addr σ : Type} [DecidableEq Addr]

/-- A completed `AttemptToConnect` created a socket, inserted it under the
target address and left the log and the reports alone. -/
theorem attemptToConnect_some (s s' : State Addr) (target : Addr) (o : ConnectOutcome)
    (h : AttemptToConnect s target o = some s') :
    ∃ sock, o.clientSocket = some sock ∧
      s'.openConnections = s.openConnections.insert target sock ∧
      s'.messageLog = s.messageLog ∧ s'.errorReports = s.errorReports ∧
      s'.nonBlocking = SetNonBlockingMode
        (SetNonBlockingMode s.nonBlocking sock false o.blockingResult) sock true
        o.nonBlockingResult := by
  unfold AttemptToConnect at h
  cases hsock : o.clientSocket with
  | none => simp [hsock] at h
  | some sock =>
    simp only [hsock] at h
    split_ifs at h with hb hc
    cases h
    exact ⟨sock, rfl, rfl, rfl, rfl, rfl⟩

/-- A completed `CheckForNewConnections` either changed nothing or inserted
the accepted socket under the client address. -/
theorem checkForNewConnections_some (render : Addr → String) (s s' : State Addr)
    (o : AcceptOutcome Addr) (h : CheckForNewConnections render s o = some s') :
    s'.openConnections = s.openConnections ∨
      ∃ sock, o.connectionSocket = some sock ∧
        s'.openConnections = s.openConnections.insert o.clientAddress sock := by
  unfold CheckForNewConnections at h
  cases hsock : o.connectionSocket with
  | none =>
    simp only [hsock] at h
    split_ifs at h
    cases h
    exact Or.inl rfl
  | some sock =>
    simp only [hsock] at h
    split_ifs at h
    cases h
    exact Or.inr ⟨sock, rfl, rfl⟩

/-- Inserting under a key already present keeps the number of entries. -/
theorem length_insert_of_mem (t : ConnectionTable Addr) (a : Addr) (sock : Handle)
    (h : a ∈ t) : (t.insert a sock).entries.length = t.entries.length := by
  obtain ⟨b, hb⟩ := List.mem_keys.mp (AList.mem_keys.mp h)
  have hpos : 0 < t.entries.length := List.length_pos_of_mem hb
  rw [AList.insert_entries, List.length_cons, List.kerase,
    List.length_eraseP_of_mem hb (by simp)]
  omega

/-- Inserting under a new key adds one entry. -/
theorem length_insert_of_not_mem (t : ConnectionTable Addr) (a : Addr) (sock : Handle)
    (h : a ∉ t) : (t.insert a sock).entries.length = t.entries.length + 1 := by
  rw [AList.insert_entries_of_neg h, List.length_cons]

/-- `AttemptToConnect` completes exactly when the socket was created and
`Bind` and `Connect` returned `0`. -/
theorem attemptToConnect_isSome_iff (s : State Addr) (target : Addr) (o : ConnectOutcome) :
    (AttemptToConnect s target o).isSome ↔
      o.clientSocket.isSome ∧ o.bindResult = 0 ∧ o.connectResult = 0 := by
  unfold AttemptToConnect
  cases o.clientSocket with
  | none => simp
  | some sock =>
    by_cases hb : o.bindResult = 0 <;> by_cases hc : o.connectResult = 0 <;> simp [hb, hc]

/-- C8: an `AttemptToConnect(target)` whose socket creation, bind and connect
succeed completes, whatever the mode toggles return; afterwards the target
maps to the socket just created and every other key has the handle it had;
when the target was already a key the number of entries is unchanged, and
when it was not the number of entries grows by exactly one. -/
theorem C8_connect_overwrites (s : State Addr) (target : Addr) (sock : Handle)
    (blockingResult nonBlockingResult : Int) :
    ∃ s', AttemptToConnect s target
        { clientSocket := some sock, bindResult := 0, blockingResult := blockingResult,
          connectResult := 0, nonBlockingResult := nonBlockingResult } = some s' ∧
      s'.openConnections.lookup target = some sock ∧
      (∀ a, a ≠ target → s'.openConnections.lookup a = s.openConnections.lookup a) ∧
      (target ∈ s.openConnections →
        s'.openConnections.entries.length = s.openConnections.entries.length) ∧
      (target ∉ s.openConnections →
        s'.openConnections.entries.length = s.openConnections.entries.length + 1) := by
  refine ⟨{ s with
      openConnections := s.openConnections.insert target sock
      nonBlocking := SetNonBlockingMode
        (SetNonBlockingMode s.nonBlocking sock false blockingResult) sock true
        nonBlockingResult }, ?_, ?_, ?_, ?_, ?_⟩
  · simp only [AttemptToConnect, if_true]
  · exact AList.lookup_insert _
  · exact fun _ ha => AList.lookup_insert_ne ha
  · exact length_insert_of_mem _ _ _
  · exact length_insert_of_not_mem _ _ _

/-- C8 on the two-peer manager: reconnecting to `peerA`, already a key, keeps
two entries, maps `peerA` to the new socket 9 and leaves `peerB` on socket 4. -/
theorem C8_connect_overwrites_witness :
    ∃ s', AttemptToConnect twoPeers peerA ⟨some 9, 0, 0, 0, 0⟩ = some s' ∧
      s'.openConnections.lookup peerA = some 9 ∧
      s'.openConnections.lookup peerB = some 4 ∧
      s'.openConnections.entries.length = 2 := by
  obtain ⟨s', h1, h2, h3, h4, -⟩ := C8_connect_overwrites twoPeers peerA 9 0 0
  exact ⟨s', h1, h2, (h3 peerB (by decide)).trans (by decide),
    (h4 (AList.mem_keys.mpr (by decide))).trans (by decide)⟩

/-- C9 fails on `AttemptToConnect`: from the initial state, a connect attempt
whose `SetNonBlockingMode(true)` returns an error completes, and the table then
maps `peerA` to socket 9, which is in blocking mode. -/
theorem C9_connect_stores_blocking_socket :
    (AttemptToConnect (State.initial SocketAddress) peerA toggleBackFails).map
      (fun s => (s.openConnections.lookup peerA, s.nonBlocking 9)) = some (some 9, false) := by
  decide

/-- The non-blocking invariant survives a completed `CheckForNewConnections`:
the only socket it admits passed the asserted switch to non-blocking mode. -/
theorem allNonBlocking_check (render : Addr → String) (s s' : State Addr)
    (o : AcceptOutcome Addr) (hinv : allNonBlocking s)
    (h : CheckForNewConnections render s o = some s') : allNonBlocking s' := by
  unfold CheckForNewConnections at h
  cases hsock : o.connectionSocket with
  | none =>
    simp only [hsock] at h
    split_ifs at h
    cases h
    exact hinv
  | some sock =>
    simp only [hsock] at h
    split_ifs at h with hr
    cases h
    intro a sock' ha
    simp only [SetNonBlockingMode, hr, if_true]
    by_cases hs : sock' = sock
    · rw [hs, Function.update_same]
    · rw [Function.update_noteq hs]
      by_cases hk : a = o.clientAddress
      · rw [hk, AList.lookup_insert] at ha
        exact absurd (Option.some.inj ha).symm hs
      · rw [AList.lookup_insert_ne hk] at ha
        exact hinv a sock' ha

/-- The non-blocking invariant survives a completed `AttemptToConnect` whose
final switch to non-blocking mode succeeded. -/
theorem allNonBlocking_connect (s s' : State Addr) (target : Addr) (o : ConnectOutcome)
    (hinv : allNonBlocking s) (h : AttemptToConnect s target o = some s')
    (hok : o.nonBlockingResult = 0) : allNonBlocking s' := by
  obtain ⟨sock, -, h1, -, -, h2⟩ := attemptToConnect_some s s' target o h
  intro a sock' ha
  rw [h2]
  rw [h1] at ha
  simp only [SetNonBlockingMode, hok, if_true]
  by_cases hs : sock' = sock
  · rw [hs, Function.update_same]
  · rw [Function.update_noteq hs]
    by_cases hk : a = target
    · rw [hk, AList.lookup_insert] at ha
      exact absurd (Option.some.inj ha).symm hs
    · rw [AList.lookup_insert_ne hk] at ha
      have := hinv a sock' ha
      split_ifs
      · rw [Function.update_noteq hs]; exact this
      · exact this

/-- C10: no operation removes an entry.  Every key present before a completed
`CheckForNewConnections` or `AttemptToConnect` is present after it, and
`SendMessageToPeers` and `PostMessagesFromPeers` return the very same table,
whatever the transport answers. -/
theorem C10_no_entry_removed (render : Addr → String) (T : Transport σ) (s : State Addr)
    (w : σ) (message : String) (o : AcceptOutcome Addr) (target : Addr)
    (co : ConnectOutcome) :
    (∀ s', CheckForNewConnections render s o = some s' →
      ∀ a, a ∈ s.openConnections → a ∈ s'.openConnections) ∧
    (∀ s', AttemptToConnect s target co = some s' →
      ∀ a, a ∈ s.openConnections → a ∈ s'.openConnections) ∧
    (SendMessageToPeers T s w message).1.openConnections = s.openConnections ∧
    (PostMessagesFromPeers render T s w).1.openConnections = s.openConnections := by
  refine ⟨?_, ?_, rfl, rfl⟩
  · intro s' h a ha
    rcases checkForNewConnections_some render s s' o h with h1 | ⟨sock, -, h1⟩
    · rw [h1]; exact ha
    · rw [h1]; exact (AList.mem_insert _).mpr (Or.inr ha)
  · intro s' h a ha
    obtain ⟨sock, -, h1, -⟩ := attemptToConnect_some s s' target co h
    rw [h1]; exact (AList.mem_insert _).mpr (Or.inr ha)

/-- C10 on the two-peer manager: after a completed reconnect to `peerA`,
`peerB` is still a key, and a broadcast in which a send fails leaves the table
as it was. -/
theorem C10_no_entry_removed_witness :
    AttemptToConnect twoPeers peerA ⟨some 9, 0, 0, 0, 0⟩ = some twoPeersReconnected ∧
    peerB ∈ twoPeers.openConnections ∧
    peerB ∈ twoPeersReconnected.openConnections ∧
    (SendMessageToPeers scripted twoPeers ⟨[-10054], []⟩ "hi").1.openConnections =
      twoPeers.openConnections :=
  ⟨rfl, AList.mem_keys.mpr (by decide),
    (C10_no_entry_removed SocketAddress.ToString scripted twoPeers ⟨[-10054], []⟩ "hi"
      (acceptedOutcome ((peerA, 7), 0)) peerA ⟨some 9, 0, 0, 0, 0⟩).2.1
      twoPeersReconnected rfl peerB (AList.mem_keys.mpr (by decide)),
    (C10_no_entry_removed SocketAddress.ToString scripted twoPeers ⟨[-10054], []⟩ "hi"
      (acceptedOutcome ((peerA, 7), 0)) peerA ⟨some 9, 0, 0, 0, 0⟩).2.2.1⟩

end Connect

end NetworkManager
